import Mathlib

/-!
Verification of the emscripten runtime orchestration core
(`src/lib/emscripten/src/lib.rs`): the address-space planner, the memory
bootstrap, argument marshaling and the program launcher.

Machine integers of the source (`u32`) are embedded as `Nat` with an explicit
`% 2 ^ 32` wherever the source performs 32-bit arithmetic.
-/

/-- Reduction of a natural number to the 32-bit range, modelling Rust `u32`
wrap-around arithmetic. -/
def u32 (n : Nat) : Nat := n % 4294967296

/-- `TOTAL_STACK` constant from `lib.rs`. -/
def TOTAL_STACK : Nat := 5242880

/-- `DYNAMICTOP_PTR_DIFF` constant from `lib.rs`. -/
def DYNAMICTOP_PTR_DIFF : Nat := 1088

/-- `STATIC_BUMP` constant from `lib.rs`. -/
def STATIC_BUMP : Nat := 215536

/-- `GLOBAL_BASE` constant from `lib.rs`. -/
def GLOBAL_BASE : Nat := 1024

/-- `STATIC_BASE` constant from `lib.rs` (equal to `GLOBAL_BASE`). -/
def STATIC_BASE : Nat := GLOBAL_BASE

/-- Modelled from the spec: `align_memory` from the `storage` module, which is
re-exported by `lib.rs` but whose file is not under `src/`. It rounds an
address up to the fixed 16-byte alignment boundary, in `u32` arithmetic. -/
def align_memory (ptr : Nat) : Nat := u32 (ptr + 15) / 16 * 16

/-- Modelled from the spec: `static_alloc` from the `storage` module (not under
`src/`): bump-allocates `size` bytes at the current static top, returning the
previous top as the allocated address and advancing the top by `size` rounded
up to the alignment boundary.  The pair is `(allocated address, new top)`. -/
def static_alloc (static_top size : Nat) : Nat × Nat :=
  (static_top, align_memory (static_top + size))

/-- Standalone layout function `dynamictop_ptr` from `lib.rs`. -/
def dynamictop_ptr (static_bump : Nat) : Nat :=
  u32 (static_bump + DYNAMICTOP_PTR_DIFF)

/-- Standalone layout function `stacktop` from `lib.rs`. -/
def stacktop (static_bump : Nat) : Nat :=
  align_memory (dynamictop_ptr static_bump + 4)

/-- Standalone layout function `stack_max` from `lib.rs`. -/
def stack_max (static_bump : Nat) : Nat :=
  u32 (stacktop static_bump + TOTAL_STACK)

/-- Standalone layout function `dynamic_base` from `lib.rs`. -/
def dynamic_base (static_bump : Nat) : Nat :=
  align_memory (stack_max static_bump)

/-- The numeric fields of `EmscriptenGlobalsData` from `lib.rs` (the two
floating-point constants `infinity` and `nan` are omitted: no claim concerns
them). -/
structure EmscriptenGlobalsData where
  abort : Nat
  stacktop : Nat
  stack_max : Nat
  dynamictop_ptr : Nat
  memory_base : Nat
  table_base : Nat
  temp_double_ptr : Nat
  deriving Repr, DecidableEq

/-- The inline bump-allocation computation in `EmscriptenGlobals::new` from
`lib.rs`, generalised over `static_bump` (the source fixes
`static_bump = STATIC_BUMP`; the commented-out parameter of `new` shows the
intended generalisation). -/
def EmscriptenGlobalsData.new (static_bump : Nat) : EmscriptenGlobalsData :=
  let static_top0 := u32 (STATIC_BASE + static_bump)
  let memory_base := STATIC_BASE
  let table_base := 0
  let temp_double_ptr := static_top0
  let static_top1 := u32 (static_top0 + 16)
  let alloc := static_alloc static_top1 4
  let dynamictop_ptr := alloc.1
  let static_top2 := alloc.2
  let stacktop := align_memory static_top2
  let stack_max := u32 (stacktop + TOTAL_STACK)
  { abort := 0
    stacktop := stacktop
    stack_max := stack_max
    dynamictop_ptr := dynamictop_ptr
    memory_base := memory_base
    table_base := table_base
    temp_double_ptr := temp_double_ptr }

/-- `emscripten_set_up_memory` from `lib.rs`.  The guest linear memory is
embedded through its 32-bit word view `view : Nat → Nat` (index `i` holds the
word at byte offset `4*i`), exactly the view the source indexes.  The function
writes the computed `dynamic_base = align_memory stack_max` at word index
`dynamictop_ptr / 4`. -/
def emscripten_set_up_memory (view : Nat → Nat) (globals : EmscriptenGlobalsData) :
    Nat → Nat :=
  fun i =>
    if i = globals.dynamictop_ptr / 4 then align_memory globals.stack_max
    else view i

-- Arithmetic facts about the planner, used by several claims.

theorem align_memory_ge (x : Nat) (h : x + 15 < 4294967296) :
    x ≤ align_memory x := by
  simp only [align_memory, u32]
  omega

theorem align_memory_of_aligned (x : Nat) (h : x < 4294967296) (h16 : x % 16 = 0) :
    align_memory x = x := by
  simp only [align_memory, u32]
  omega

theorem align_memory_mod16 (x : Nat) : align_memory x % 16 = 0 := by
  simp only [align_memory, u32]
  omega

/-- Closed form of the inline layout below the 32-bit overflow bound. -/
theorem EmscriptenGlobalsData.new_eq (s : Nat) (h : s + 5244000 < 4294967296) :
    EmscriptenGlobalsData.new s =
      { abort := 0
        stacktop := (s + 1059) / 16 * 16
        stack_max := (s + 1059) / 16 * 16 + TOTAL_STACK
        dynamictop_ptr := s + 1040
        memory_base := STATIC_BASE
        table_base := 0
        temp_double_ptr := s + 1024 } := by
  simp only [EmscriptenGlobalsData.new, static_alloc, align_memory, u32,
    STATIC_BASE, GLOBAL_BASE, TOTAL_STACK]
  refine EmscriptenGlobalsData.mk.injEq .. ▸ ⟨rfl, ?_, ?_, ?_, rfl, rfl, ?_⟩ <;> omega

/-- C1 counterexample: the claimed strict chain fails at `staticDataSize = 0`
because `dynamic_base = align_memory stack_max` equals `stack_max` (which is
already 16-aligned), so the final strict inequality is false. -/
theorem C1_counterexample :
    ¬ (STATIC_BASE ≤ (EmscriptenGlobalsData.new 0).temp_double_ptr
       ∧ (EmscriptenGlobalsData.new 0).temp_double_ptr
           < (EmscriptenGlobalsData.new 0).dynamictop_ptr
       ∧ (EmscriptenGlobalsData.new 0).dynamictop_ptr
           < (EmscriptenGlobalsData.new 0).stacktop
       ∧ (EmscriptenGlobalsData.new 0).stacktop
           < (EmscriptenGlobalsData.new 0).stack_max
       ∧ (EmscriptenGlobalsData.new 0).stack_max
           < align_memory (EmscriptenGlobalsData.new 0).stack_max) := by
  decide

/-- C1 (amended): for every staticDataSize below the 32-bit overflow bound the
layout satisfies `static_base ≤ temp_double_ptr < dynamictop_ptr < stacktop <
stack_max ≤ dynamic_base`, and the final step is in fact an equality:
`dynamic_base = align_memory stack_max = stack_max`. -/
theorem C1_layout_ordering (s : Nat) (h : s + 5244000 < 4294967296) :
    STATIC_BASE ≤ (EmscriptenGlobalsData.new s).temp_double_ptr
    ∧ (EmscriptenGlobalsData.new s).temp_double_ptr
        < (EmscriptenGlobalsData.new s).dynamictop_ptr
    ∧ (EmscriptenGlobalsData.new s).dynamictop_ptr
        < (EmscriptenGlobalsData.new s).stacktop
    ∧ (EmscriptenGlobalsData.new s).stacktop
        < (EmscriptenGlobalsData.new s).stack_max
    ∧ align_memory (EmscriptenGlobalsData.new s).stack_max
        = (EmscriptenGlobalsData.new s).stack_max := by
  rw [EmscriptenGlobalsData.new_eq s h]
  simp only [STATIC_BASE, GLOBAL_BASE, TOTAL_STACK]
  refine ⟨by omega, by omega, by omega, by omega, ?_⟩
  exact align_memory_of_aligned _ (by omega) (by omega)

theorem C1_layout_ordering_witness :
    STATIC_BASE ≤ (EmscriptenGlobalsData.new 0).temp_double_ptr
    ∧ (EmscriptenGlobalsData.new 0).temp_double_ptr
        < (EmscriptenGlobalsData.new 0).dynamictop_ptr
    ∧ (EmscriptenGlobalsData.new 0).dynamictop_ptr
        < (EmscriptenGlobalsData.new 0).stacktop
    ∧ (EmscriptenGlobalsData.new 0).stacktop
        < (EmscriptenGlobalsData.new 0).stack_max
    ∧ align_memory (EmscriptenGlobalsData.new 0).stack_max
        = (EmscriptenGlobalsData.new 0).stack_max :=
  C1_layout_ordering 0 (by decide)

/-- C2: after `emscripten_set_up_memory` runs on the globals computed at the
instantiation value `STATIC_BUMP`, the guest memory word at byte offset
`dynamictop_ptr` (word index `dynamictop_ptr / 4`; the offset is 4-byte exact)
equals the computed `dynamic_base = align_memory stack_max`, for every prior
memory content. -/
theorem C2_memory_seeding (view : Nat → Nat) :
    emscripten_set_up_memory view (EmscriptenGlobalsData.new STATIC_BUMP)
        ((EmscriptenGlobalsData.new STATIC_BUMP).dynamictop_ptr / 4)
      = align_memory (EmscriptenGlobalsData.new STATIC_BUMP).stack_max
    ∧ (EmscriptenGlobalsData.new STATIC_BUMP).dynamictop_ptr % 4 = 0 := by
  refine ⟨?_, by decide⟩
  simp [emscripten_set_up_memory]

theorem C2_memory_seeding_witness :
    emscripten_set_up_memory (fun _ => 0) (EmscriptenGlobalsData.new STATIC_BUMP)
        ((EmscriptenGlobalsData.new STATIC_BUMP).dynamictop_ptr / 4)
      = align_memory (EmscriptenGlobalsData.new STATIC_BUMP).stack_max
    ∧ (EmscriptenGlobalsData.new STATIC_BUMP).dynamictop_ptr % 4 = 0 :=
  C2_memory_seeding (fun _ => 0)

/-- C5 counterexample: at `static_bump = STATIC_BUMP` the standalone layout
functions and the inline computation of `EmscriptenGlobals::new` disagree on
every corresponding field (standalone `dynamictop_ptr` is 216624 while the
inline value is 216576, and so on), so the claimed equality is false. -/
theorem C5_counterexample :
    ¬ (dynamictop_ptr STATIC_BUMP
         = (EmscriptenGlobalsData.new STATIC_BUMP).dynamictop_ptr
       ∧ stacktop STATIC_BUMP = (EmscriptenGlobalsData.new STATIC_BUMP).stacktop
       ∧ stack_max STATIC_BUMP = (EmscriptenGlobalsData.new STATIC_BUMP).stack_max
       ∧ dynamic_base STATIC_BUMP
         = align_memory (EmscriptenGlobalsData.new STATIC_BUMP).stack_max) := by
  decide

/-- C5 (amended): at `static_bump = STATIC_BUMP` each standalone layout
function exceeds the corresponding inline field of `EmscriptenGlobals::new`
by exactly 48 bytes (the standalone `dynamictop_ptr` uses the constant offset
`DYNAMICTOP_PTR_DIFF = 1088` where the inline computation effectively uses
`STATIC_BASE + 16 = 1040`). -/
theorem C5_standalone_offset :
    dynamictop_ptr STATIC_BUMP
      = (EmscriptenGlobalsData.new STATIC_BUMP).dynamictop_ptr + 48
    ∧ stacktop STATIC_BUMP = (EmscriptenGlobalsData.new STATIC_BUMP).stacktop + 48
    ∧ stack_max STATIC_BUMP = (EmscriptenGlobalsData.new STATIC_BUMP).stack_max + 48
    ∧ dynamic_base STATIC_BUMP
      = align_memory (EmscriptenGlobalsData.new STATIC_BUMP).stack_max + 48 := by
  decide

/-- C6: every pointer field of the layout computed at the instantiation value
`STATIC_BUMP` (including the derived `dynamic_base = align_memory stack_max`)
is a multiple of the fixed 16-byte alignment constant. -/
theorem C6_alignment :
    (EmscriptenGlobalsData.new STATIC_BUMP).temp_double_ptr % 16 = 0
    ∧ (EmscriptenGlobalsData.new STATIC_BUMP).dynamictop_ptr % 16 = 0
    ∧ (EmscriptenGlobalsData.new STATIC_BUMP).stacktop % 16 = 0
    ∧ (EmscriptenGlobalsData.new STATIC_BUMP).stack_max % 16 = 0
    ∧ align_memory (EmscriptenGlobalsData.new STATIC_BUMP).stack_max % 16 = 0 := by
  decide

/-!
Guest stack and argument marshaling.  The guest linear memory is embedded as a
byte function `Nat → Nat`; writes of 32-bit words store four little-endian
bytes, exactly the layout of the `u32` slice view used by the source.
-/

/-- Write a list of bytes into memory at consecutive addresses starting at
`a`. -/
def writeBytes (mem : Nat → Nat) : Nat → List Nat → (Nat → Nat)
  | _, [] => mem
  | a, b :: bs => writeBytes (fun y => if y = a then b else mem y) (a + 1) bs

/-- The four little-endian bytes of a 32-bit word. -/
def wordBytes (v : Nat) : List Nat :=
  [v % 256, v / 256 % 256, v / 65536 % 256, v / 16777216 % 256]

/-- Write a list of 32-bit words at consecutive 4-byte slots starting at
address `a`. -/
def writeWords (mem : Nat → Nat) : Nat → List Nat → (Nat → Nat)
  | _, [] => mem
  | a, v :: vs => writeWords (writeBytes mem a (wordBytes v)) (a + 4) vs

/-- Read the little-endian 32-bit word at address `a`. -/
def readWord (mem : Nat → Nat) (a : Nat) : Nat :=
  mem a + 256 * mem (a + 1) + 65536 * mem (a + 2) + 16777216 * mem (a + 3)

/-- The guest stack as seen by the marshaling code: the byte memory together
with the next free stack address handed out by the guest's stack allocator. -/
structure GuestStack where
  mem : Nat → Nat
  sp : Nat

/-- Modelled from the spec: `allocate_on_stack` from the `utils` module (not
under `src/`): reserves `byteCount` bytes on the guest stack and returns the
guest address of the reserved block. -/
def allocate_on_stack (st : GuestStack) (byteCount : Nat) : Nat × GuestStack :=
  (st.sp, { st with sp := st.sp + byteCount })

/-- Modelled from the spec: `allocate_cstr_on_stack` from the `utils` module
(not under `src/`): writes the string's bytes followed by a terminating NUL
onto the guest stack and returns the string's guest address. -/
def allocate_cstr_on_stack (st : GuestStack) (s : List Nat) : Nat × GuestStack :=
  let r := allocate_on_stack st (s.length + 1)
  (r.1, { r.2 with mem := writeBytes r.2.mem r.1 (s ++ [0]) })

/-- The first loop of `store_module_arguments`: allocate each string of the
list as a NUL-terminated C string, in input order, collecting the guest
addresses. -/
def allocate_cstrs (st : GuestStack) : List (List Nat) → List Nat × GuestStack
  | [] => ([], st)
  | s :: rest =>
    let r := allocate_cstr_on_stack st s
    let rr := allocate_cstrs r.2 rest
    (r.1 :: rr.1, rr.2)

/-- Total number of stack bytes consumed by a list of NUL-terminated
strings. -/
def totalLen (ss : List (List Nat)) : Nat := (ss.map (fun s => s.length + 1)).sum

/-- `store_module_arguments` from `lib.rs`: writes the program path and every
argument as NUL-terminated strings on the guest stack, then allocates
`(argc + 1) * 4` bytes for the pointer array and fills it with the collected
addresses followed by a terminating zero word.  Returns
`((argc, argv_offset), final stack)`. -/
def store_module_arguments (st : GuestStack) (path : List Nat)
    (args : List (List Nat)) : (Nat × Nat) × GuestStack :=
  let argc := args.length + 1
  let strs := allocate_cstrs st (path :: args)
  let argv := allocate_on_stack strs.2 ((argc + 1) * 4)
  let final : GuestStack :=
    { argv.2 with mem := writeWords argv.2.mem argv.1 (strs.1 ++ [0]) }
  ((argc, argv.1), final)

-- Facts about byte and word writes.

theorem writeBytes_lower (bs : List Nat) (mem : Nat → Nat) (a x : Nat) (h : x < a) :
    writeBytes mem a bs x = mem x := by
  induction bs generalizing mem a with
  | nil => rfl
  | cons b bs ih =>
    simp only [writeBytes]
    rw [ih _ (a + 1) (by omega)]
    simp only [if_neg (by omega : ¬ x = a)]

theorem writeBytes_upper (bs : List Nat) (mem : Nat → Nat) (a x : Nat)
    (h : a + bs.length ≤ x) : writeBytes mem a bs x = mem x := by
  induction bs generalizing mem a with
  | nil => rfl
  | cons b bs ih =>
    simp only [writeBytes]
    rw [ih _ (a + 1) (by simp at h; omega)]
    simp only [if_neg (by simp at h; omega : ¬ x = a)]

theorem writeBytes_getD (bs : List Nat) (mem : Nat → Nat) (a j : Nat)
    (h : j < bs.length) : writeBytes mem a bs (a + j) = bs.getD j 0 := by
  induction bs generalizing mem a j with
  | nil => simp at h
  | cons b bs ih =>
    match j with
    | 0 =>
      simp only [writeBytes, List.getD_cons_zero, Nat.add_zero]
      rw [writeBytes_lower _ _ _ _ (by omega)]
      simp
    | j + 1 =>
      simp only [writeBytes, List.getD_cons_succ]
      have : a + (j + 1) = (a + 1) + j := by omega
      rw [this]
      exact ih _ (a + 1) j (by simp at h; omega)

theorem writeWords_lower (vs : List Nat) (mem : Nat → Nat) (a x : Nat) (h : x < a) :
    writeWords mem a vs x = mem x := by
  induction vs generalizing mem a with
  | nil => rfl
  | cons v vs ih =>
    simp only [writeWords]
    rw [ih _ (a + 4) (by omega)]
    exact writeBytes_lower _ _ _ _ h

theorem readWord_writeWords (vs : List Nat) (mem : Nat → Nat) (a i : Nat)
    (h : i < vs.length) :
    readWord (writeWords mem a vs) (a + 4 * i) = vs.getD i 0 % 4294967296 := by
  induction vs generalizing mem a i with
  | nil => simp at h
  | cons v vs ih =>
    match i with
    | 0 =>
      simp only [writeWords, List.getD_cons_zero, Nat.mul_zero, Nat.add_zero]
      have r0 : ∀ k, k < 4 → writeWords (writeBytes mem a (wordBytes v)) (a + 4) vs (a + k)
          = (wordBytes v).getD k 0 := by
        intro k hk
        rw [writeWords_lower _ _ _ _ (by omega)]
        exact writeBytes_getD _ _ _ _ (by simp [wordBytes]; omega)
      simp only [readWord]
      have e0 : writeWords (writeBytes mem a (wordBytes v)) (a + 4) vs a
          = (wordBytes v).getD 0 0 := by simpa using r0 0 (by omega)
      have e1 := r0 1 (by omega)
      have e2 := r0 2 (by omega)
      have e3 := r0 3 (by omega)
      rw [e0, e1, e2, e3]
      simp only [wordBytes, List.getD_cons_zero, List.getD_cons_succ]
      omega
    | i + 1 =>
      simp only [writeWords, List.getD_cons_succ]
      have : a + 4 * (i + 1) = (a + 4) + 4 * i := by omega
      rw [this]
      exact ih _ (a + 4) i (by simp at h; omega)

-- Facts about `totalLen`.

theorem totalLen_nil : totalLen [] = 0 := rfl

theorem totalLen_cons (s : List Nat) (ss : List (List Nat)) :
    totalLen (s :: ss) = (s.length + 1) + totalLen ss := by
  simp [totalLen]

theorem totalLen_take_succ_le (ss : List (List Nat)) (i : Nat) (h : i < ss.length) :
    totalLen (ss.take i) + ((ss.getD i []).length + 1) ≤ totalLen ss := by
  induction ss generalizing i with
  | nil => simp at h
  | cons s ss ih =>
    match i with
    | 0 => simp [totalLen_cons, totalLen_nil]
    | i + 1 =>
      simp only [List.take_succ_cons, List.getD_cons_succ, totalLen_cons]
      have := ih i (by simp at h; omega)
      omega

theorem totalLen_take_le (ss : List (List Nat)) (i : Nat) :
    totalLen (ss.take i) ≤ totalLen ss := by
  induction ss generalizing i with
  | nil => simp [totalLen_nil]
  | cons s ss ih =>
    match i with
    | 0 => simp [totalLen_nil, totalLen_cons]
    | i + 1 =>
      simp only [List.take_succ_cons, totalLen_cons]
      have := ih i
      omega

/-- The invariant established by the string-allocation loop: the stack pointer
advances by the total string footprint, memory below the original stack
pointer is untouched, and the `i`-th returned address points at the `i`-th
string stored NUL-terminated at sequential addresses in input order. -/
theorem allocate_cstrs_spec (ss : List (List Nat)) (st : GuestStack) :
    (allocate_cstrs st ss).1.length = ss.length
    ∧ (allocate_cstrs st ss).2.sp = st.sp + totalLen ss
    ∧ (∀ x, x < st.sp → (allocate_cstrs st ss).2.mem x = st.mem x)
    ∧ (∀ i, i < ss.length →
        (allocate_cstrs st ss).1.getD i 0 = st.sp + totalLen (ss.take i)
        ∧ ∀ j, j < (ss.getD i []).length + 1 →
            (allocate_cstrs st ss).2.mem ((allocate_cstrs st ss).1.getD i 0 + j)
              = ((ss.getD i []) ++ [0]).getD j 0) := by
  induction ss generalizing st with
  | nil =>
    refine ⟨rfl, ?_, fun x _ => rfl, fun i hi => by simp at hi⟩
    simp [allocate_cstrs, totalLen_nil]
  | cons s ss ih =>
    simp only [allocate_cstrs, allocate_cstr_on_stack, allocate_on_stack]
    set st1 : GuestStack :=
      { mem := writeBytes st.mem st.sp (s ++ [0]), sp := st.sp + (s.length + 1) } with hst1
    obtain ⟨ihlen, ihsp, ihlow, ihstr⟩ := ih st1
    refine ⟨by simpa using ihlen, ?_, ?_, ?_⟩
    · simp only [ihsp, hst1, totalLen_cons]
      omega
    · intro x hx
      have h1 : (allocate_cstrs st1 ss).2.mem x = st1.mem x := ihlow x (by simp [hst1]; omega)
      rw [h1, hst1]
      exact writeBytes_lower _ _ _ _ hx
    · intro i hi
      match i with
      | 0 =>
        simp only [List.getD_cons_zero, List.take_zero, totalLen_nil, Nat.add_zero]
        refine ⟨by trivial, ?_⟩
        intro j hj
        have h1 : (allocate_cstrs st1 ss).2.mem (st.sp + j) = st1.mem (st.sp + j) :=
          ihlow _ (by simp [hst1]; omega)
        rw [h1, hst1]
        exact writeBytes_getD _ _ _ _ (by simp; omega)
      | i + 1 =>
        simp only [List.getD_cons_succ, List.take_succ_cons, totalLen_cons]
        obtain ⟨hptr, hbytes⟩ := ihstr i (by simp at hi; omega)
        refine ⟨?_, ?_⟩
        · rw [hptr]
          have hsp1 : st1.sp = st.sp + (s.length + 1) := rfl
          omega
        · intro j hj
          exact hbytes j hj

/-- Full characterisation of `store_module_arguments` in projection form. -/
theorem store_module_arguments_props (st : GuestStack) (path : List Nat)
    (args : List (List Nat)) (h : st.sp + totalLen (path :: args) < 4294967296) :
    (store_module_arguments st path args).1.1 = args.length + 1
    ∧ (store_module_arguments st path args).1.2 = st.sp + totalLen (path :: args)
    ∧ (store_module_arguments st path args).2.sp
        = (store_module_arguments st path args).1.2 + (args.length + 2) * 4
    ∧ (∀ i, i < args.length + 1 →
        readWord (store_module_arguments st path args).2.mem
            ((store_module_arguments st path args).1.2 + 4 * i)
          = st.sp + totalLen ((path :: args).take i)
        ∧ ∀ j, j < ((path :: args).getD i []).length + 1 →
            (store_module_arguments st path args).2.mem
                (st.sp + totalLen ((path :: args).take i) + j)
              = ((path :: args).getD i [] ++ [0]).getD j 0)
    ∧ readWord (store_module_arguments st path args).2.mem
        ((store_module_arguments st path args).1.2 + 4 * (args.length + 1)) = 0 := by
  obtain ⟨alen, asp, alow, astr⟩ := allocate_cstrs_spec (path :: args) st
  have hlen1 : (allocate_cstrs st (path :: args)).1.length = args.length + 1 := by
    simpa using alen
  simp only [store_module_arguments, allocate_on_stack]
  refine ⟨by simp, asp, by trivial, ?_, ?_⟩
  · intro i hi
    have hi' : i < (path :: args).length := by simpa using hi
    have hslot : readWord
        (writeWords (allocate_cstrs st (path :: args)).2.mem
          (allocate_cstrs st (path :: args)).2.sp
          ((allocate_cstrs st (path :: args)).1 ++ [0]))
        ((allocate_cstrs st (path :: args)).2.sp + 4 * i)
        = st.sp + totalLen ((path :: args).take i) := by
      rw [readWord_writeWords _ _ _ _ (by simp [hlen1]; omega)]
      rw [List.getD_append _ _ _ _ (by omega)]
      rw [(astr i hi').1]
      have hle : totalLen ((path :: args).take i) ≤ totalLen (path :: args) :=
        totalLen_take_le _ _
      exact Nat.mod_eq_of_lt (by omega)
    refine ⟨hslot, ?_⟩
    intro j hj
    have haddr : st.sp + totalLen ((path :: args).take i) + j
        < (allocate_cstrs st (path :: args)).2.sp := by
      have := totalLen_take_succ_le (path :: args) i hi'
      rw [asp]
      omega
    rw [writeWords_lower _ _ _ _ haddr]
    have hb := (astr i hi').2 j hj
    rw [(astr i hi').1] at hb
    exact hb
  · rw [readWord_writeWords _ _ _ _ (by simp [hlen1])]
    rw [List.getD_append_right _ _ _ _ (by omega)]
    simp [hlen1]

/-- C3: for every program path and argument list, `store_module_arguments`
returns `argc = 1 + len(argsList)`, writes the path and then each argument in
input order as NUL-terminated strings at sequential stack addresses, allocates
`(argc + 1) * 4` bytes for the pointer array, fills slot `i < argc` with the
address of string `i` (slot 0 the path, slots `1..argc` the arguments in
order) and slot `argc` with 0, and returns `(argc, arrayAddress)`.  The
hypothesis keeps the stack below the 32-bit pointer range so each stored
pointer word reads back exactly. -/
theorem C3_argument_marshaling (st : GuestStack) (path : List Nat)
    (args : List (List Nat)) (argc argv : Nat) (stf : GuestStack)
    (heq : store_module_arguments st path args = ((argc, argv), stf))
    (h : st.sp + totalLen (path :: args) < 4294967296) :
    argc = args.length + 1
    ∧ argv = st.sp + totalLen (path :: args)
    ∧ stf.sp = argv + (argc + 1) * 4
    ∧ (∀ i, i < argc →
        readWord stf.mem (argv + 4 * i) = st.sp + totalLen ((path :: args).take i)
        ∧ ∀ j, j < ((path :: args).getD i []).length + 1 →
            stf.mem (readWord stf.mem (argv + 4 * i) + j)
              = ((path :: args).getD i [] ++ [0]).getD j 0)
    ∧ readWord stf.mem (argv + 4 * argc) = 0 := by
  obtain ⟨h1, h2, h3, h4, h5⟩ := store_module_arguments_props st path args h
  have e1 : (store_module_arguments st path args).1.1 = argc := by rw [heq]
  have e2 : (store_module_arguments st path args).1.2 = argv := by rw [heq]
  have e3 : (store_module_arguments st path args).2 = stf := by rw [heq]
  rw [e1] at h1
  rw [e2] at h2
  rw [e3, e2] at h3
  rw [e3, e2] at h4
  rw [e3, e2] at h5
  refine ⟨h1, h2, ?_, ?_, ?_⟩
  · rw [h1]
    omega
  · intro i hi
    have hbytes := h4 i (h1 ▸ hi)
    refine ⟨hbytes.1, ?_⟩
    intro j hj
    rw [hbytes.1]
    exact hbytes.2 j hj
  · rw [h1]
    exact h5

/-- The spec's argv round-trip example: path "node" with arguments "--flag"
and "value", marshalled starting from an empty stack. -/
def examplePath : List Nat := [110, 111, 100, 101]

/-- The example argument list: the byte strings of "--flag" and "value". -/
def exampleArgs : List (List Nat) := [[45, 45, 102, 108, 97, 103], [118, 97, 108, 117, 101]]

/-- An empty guest stack at address 0. -/
def exampleStack : GuestStack := { mem := fun _ => 0, sp := 0 }

/-- The marshaling result on the example input. -/
def exampleResult : (Nat × Nat) × GuestStack :=
  store_module_arguments exampleStack examplePath exampleArgs

theorem C3_argument_marshaling_witness :
    exampleResult.1.1 = exampleArgs.length + 1
    ∧ exampleResult.1.2 = exampleStack.sp + totalLen (examplePath :: exampleArgs)
    ∧ exampleResult.2.sp = exampleResult.1.2 + (exampleResult.1.1 + 1) * 4
    ∧ (∀ i, i < exampleResult.1.1 →
        readWord exampleResult.2.mem (exampleResult.1.2 + 4 * i)
          = exampleStack.sp + totalLen ((examplePath :: exampleArgs).take i)
        ∧ ∀ j, j < ((examplePath :: exampleArgs).getD i []).length + 1 →
            exampleResult.2.mem
                (readWord exampleResult.2.mem (exampleResult.1.2 + 4 * i) + j)
              = ((examplePath :: exampleArgs).getD i [] ++ [0]).getD j 0)
    ∧ readWord exampleResult.2.mem (exampleResult.1.2 + 4 * exampleResult.1.1) = 0 :=
  C3_argument_marshaling exampleStack examplePath exampleArgs
    exampleResult.1.1 exampleResult.1.2 exampleResult.2 (by rfl) (by decide)

/-!
The program launcher (`run_emscripten_instance`) and per-instance data
(`EmscriptenData::new`).  A wasmer `Instance` is embedded abstractly: the set
of exported function names (resolvable through `instance.func` and
`instance.dyn_func`), the declared parameter count of the `_main` entry, and
the observable behaviour of `instance.call` (returned values or an error).
Runs are modelled as the trace of `(function name, argument values)` calls
made, paired with the outcome; a Rust `panic!`/`unwrap` aborts the launch and
is a distinct outcome from an `Err` propagated through `?`. -/

/-- Abstract wasmer instance: exported function names, declared `_main`
parameter count, and call behaviour (values returned, or an error). -/
structure Instance where
  funcs : List String
  mainParams : Nat
  call : String → List Nat → Except String (List Nat)

/-- Result of a launch: clean success (carrying no value), a propagated call
error, or a host-side panic (from `unwrap` or the arity `panic!`). -/
inductive RunOutcome where
  | success
  | callFailure (e : String)
  | panicked (msg : String)
  deriving Repr, DecidableEq

/-- `instance.func(name)` resolution: the handle (kept as the name) when the
module exports the function. -/
def instanceFunc (inst : Instance) (name : String) : Option String :=
  if name ∈ inst.funcs then some name else none

/-- The cached allocator handles of `EmscriptenData` from `lib.rs` (the jump
buffer table starts empty). -/
structure EmscriptenData where
  malloc : String
  free : String
  memalign : Option String
  memset : String
  stack_alloc : String
  jumps : List (List Nat)
  deriving Repr, DecidableEq

/-- `EmscriptenData::new` from `lib.rs`: resolves `_malloc`, `_free`,
`_memset` and `stackAlloc` with `.unwrap()` (modelled as `none` = panic when
absent) and `_memalign` optionally. -/
def EmscriptenData.new (inst : Instance) : Option EmscriptenData :=
  match instanceFunc inst "_malloc", instanceFunc inst "_free",
      instanceFunc inst "_memset", instanceFunc inst "stackAlloc" with
  | some m, some f, some ms, some sa =>
    some { malloc := m, free := f, memalign := instanceFunc inst "_memalign",
           memset := ms, stack_alloc := sa, jumps := [] }
  | _, _, _, _ => none

/-- The name of the environment-constructor entry point. -/
def ctorName : String := "___emscripten_environ_constructor"

/-- The panic message of the unsupported-arity branch of
`run_emscripten_instance`. -/
def mainArityMsg (n : Nat) : String :=
  "The emscripten main function has received an incorrect number of params " ++ toString n

/-- The error produced by `instance.dyn_func` when an export is missing. -/
def exportNotFoundMsg : String := "export not found"

/-- The panic produced by `.unwrap()` on a missing required allocator
export. -/
def unwrapMsg : String := "called unwrap on a None value"

/-- The `_main` dispatch of `run_emscripten_instance` from `lib.rs`: resolve
`_main`, inspect its declared parameter count, marshal `(argc, argv)` for a
2-parameter entry, call a 0-parameter entry with no arguments, and panic on
any other arity.  Returns the calls made and the outcome. -/
def runMain (inst : Instance) (st : GuestStack) (path : List Nat)
    (args : List (List Nat)) : List (String × List Nat) × RunOutcome :=
  if "_main" ∈ inst.funcs then
    if inst.mainParams = 2 then
      let m := store_module_arguments st path args
      ([("_main", [m.1.1, m.1.2])],
        match inst.call "_main" [m.1.1, m.1.2] with
        | .ok _ => .success
        | .error e => .callFailure e)
    else if inst.mainParams = 0 then
      ([("_main", [])],
        match inst.call "_main" [] with
        | .ok _ => .success
        | .error e => .callFailure e)
    else ([], .panicked (mainArityMsg inst.mainParams))
  else ([], .callFailure exportNotFoundMsg)

/-- `run_emscripten_instance` from `lib.rs`: build `EmscriptenData` (panicking
if a required allocator export is missing), invoke the environment
constructor with no arguments when it is exported (propagating its failure),
then dispatch on the `_main` arity. -/
def run_emscripten_instance (inst : Instance) (st : GuestStack) (path : List Nat)
    (args : List (List Nat)) : List (String × List Nat) × RunOutcome :=
  match EmscriptenData.new inst with
  | none => ([], .panicked unwrapMsg)
  | some _ =>
    if ctorName ∈ inst.funcs then
      match inst.call ctorName [] with
      | .error e => ([(ctorName, [])], .callFailure e)
      | .ok _ =>
        let t := runMain inst st path args
        ((ctorName, []) :: t.1, t.2)
    else runMain inst st path args

-- Unfolding lemmas for the launcher.

theorem run_unfold_none (inst : Instance) (st : GuestStack) (path : List Nat)
    (args : List (List Nat)) (hnew : EmscriptenData.new inst = none) :
    run_emscripten_instance inst st path args = ([], .panicked unwrapMsg) := by
  simp only [run_emscripten_instance, hnew]

theorem run_unfold_some (inst : Instance) (st : GuestStack) (path : List Nat)
    (args : List (List Nat)) (d : EmscriptenData)
    (hnew : EmscriptenData.new inst = some d) :
    run_emscripten_instance inst st path args =
      if ctorName ∈ inst.funcs then
        match inst.call ctorName [] with
        | .error e => ([(ctorName, [])], .callFailure e)
        | .ok _ =>
          ((ctorName, []) :: (runMain inst st path args).1,
            (runMain inst st path args).2)
      else runMain inst st path args := by
  simp only [run_emscripten_instance, hnew]

theorem runMain_two (inst : Instance) (st : GuestStack) (path : List Nat)
    (args : List (List Nat)) (h2 : "_main" ∈ inst.funcs)
    (ha : inst.mainParams = 2) :
    runMain inst st path args
      = ([("_main", [(store_module_arguments st path args).1.1,
                     (store_module_arguments st path args).1.2])],
          match inst.call "_main" [(store_module_arguments st path args).1.1,
                                   (store_module_arguments st path args).1.2] with
          | .ok _ => .success
          | .error e => .callFailure e) := by
  simp only [runMain, h2, ha, if_true, reduceIte]

theorem runMain_zero (inst : Instance) (st : GuestStack) (path : List Nat)
    (args : List (List Nat)) (h2 : "_main" ∈ inst.funcs)
    (ha : inst.mainParams = 0) :
    runMain inst st path args
      = ([("_main", [])],
          match inst.call "_main" [] with
          | .ok _ => .success
          | .error e => .callFailure e) := by
  simp only [runMain, h2, ha, if_true, reduceIte]
  rw [if_neg (by decide : ¬ (0 : Nat) = 2)]

theorem runMain_other (inst : Instance) (st : GuestStack) (path : List Nat)
    (args : List (List Nat)) (h2 : "_main" ∈ inst.funcs)
    (ha2 : inst.mainParams ≠ 2) (ha0 : inst.mainParams ≠ 0) :
    runMain inst st path args = ([], .panicked (mainArityMsg inst.mainParams)) := by
  simp only [runMain, h2, if_true, if_neg ha2, if_neg ha0]

theorem runMain_names (inst : Instance) (st : GuestStack) (path : List Nat)
    (args : List (List Nat)) :
    ∀ p ∈ (runMain inst st path args).1, p.1 = "_main" := by
  intro p hp
  by_cases h2 : "_main" ∈ inst.funcs
  · by_cases ha2 : inst.mainParams = 2
    · rw [runMain_two inst st path args h2 ha2] at hp
      simp at hp
      rw [hp]
    · by_cases ha0 : inst.mainParams = 0
      · rw [runMain_zero inst st path args h2 ha0] at hp
        simp at hp
        rw [hp]
      · rw [runMain_other inst st path args h2 ha2 ha0] at hp
        simp at hp
  · simp [runMain, h2] at hp

theorem runMain_no_ctor (inst : Instance) (st : GuestStack) (path : List Nat)
    (args : List (List Nat)) (a : List Nat) :
    (ctorName, a) ∉ (runMain inst st path args).1 := by
  intro hmem
  have hname := runMain_names inst st path args _ hmem
  have : ctorName ≠ "_main" := by decide
  exact this hname

/-- C7: at instance start `EmscriptenData::new` resolves `_malloc`, `_free`,
`_memset` and `stackAlloc` by name; absence of any of them is a fatal panic
that happens before any guest function is invoked (the launch returns with an
empty call trace); `_memalign` is optional — without it the instance still
starts, with `memalign` recorded as absent. -/
theorem C7_allocator_handles (inst : Instance) (st : GuestStack) (path : List Nat)
    (args : List (List Nat)) :
    ((EmscriptenData.new inst).isSome ↔
      ("_malloc" ∈ inst.funcs ∧ "_free" ∈ inst.funcs ∧ "_memset" ∈ inst.funcs
        ∧ "stackAlloc" ∈ inst.funcs))
    ∧ (EmscriptenData.new inst = none →
        run_emscripten_instance inst st path args = ([], .panicked unwrapMsg))
    ∧ ("_malloc" ∈ inst.funcs → "_free" ∈ inst.funcs → "_memset" ∈ inst.funcs →
        "stackAlloc" ∈ inst.funcs → "_memalign" ∉ inst.funcs →
        EmscriptenData.new inst
          = some { malloc := "_malloc", free := "_free", memalign := none,
                   memset := "_memset", stack_alloc := "stackAlloc", jumps := [] }) := by
  refine ⟨?_, ?_, ?_⟩
  · by_cases hm : "_malloc" ∈ inst.funcs <;>
      by_cases hf : "_free" ∈ inst.funcs <;>
      by_cases hs : "_memset" ∈ inst.funcs <;>
      by_cases ha : "stackAlloc" ∈ inst.funcs <;>
      simp [EmscriptenData.new, instanceFunc, hm, hf, hs, ha]
  · intro hnone
    exact run_unfold_none inst st path args hnone
  · intro hm hf hs ha hma
    simp [EmscriptenData.new, instanceFunc, hm, hf, hs, ha, hma]

/-- An instance exporting all the functions the launcher looks up, whose calls
all succeed with no values. -/
def exampleInstance : Instance :=
  { funcs := ["_malloc", "_free", "_memset", "stackAlloc", "_main", ctorName]
    mainParams := 2
    call := fun _ _ => .ok [] }

theorem C7_allocator_handles_witness :
    ((EmscriptenData.new exampleInstance).isSome ↔
      ("_malloc" ∈ exampleInstance.funcs ∧ "_free" ∈ exampleInstance.funcs
        ∧ "_memset" ∈ exampleInstance.funcs ∧ "stackAlloc" ∈ exampleInstance.funcs))
    ∧ (EmscriptenData.new exampleInstance = none →
        run_emscripten_instance exampleInstance exampleStack examplePath exampleArgs
          = ([], .panicked unwrapMsg))
    ∧ ("_malloc" ∈ exampleInstance.funcs → "_free" ∈ exampleInstance.funcs →
        "_memset" ∈ exampleInstance.funcs → "stackAlloc" ∈ exampleInstance.funcs →
        "_memalign" ∉ exampleInstance.funcs →
        EmscriptenData.new exampleInstance
          = some { malloc := "_malloc", free := "_free", memalign := none,
                   memset := "_memset", stack_alloc := "stackAlloc", jumps := [] }) :=
  C7_allocator_handles exampleInstance exampleStack examplePath exampleArgs

/-- C4: once the launch reaches the entry dispatch (data creation succeeded,
the constructor — when present — succeeded), a 2-parameter `_main` is invoked
with the marshalled `(argc, argv)`, a 0-parameter `_main` is invoked with no
arguments, and any other arity panics with the configuration message while
`_main` is never invoked. -/
theorem C4_entry_arity (inst : Instance) (st : GuestStack) (path : List Nat)
    (args : List (List Nat)) (retc : List Nat)
    (h1 : (EmscriptenData.new inst).isSome)
    (h2 : "_main" ∈ inst.funcs)
    (h3 : ctorName ∈ inst.funcs → inst.call ctorName [] = .ok retc) :
    (inst.mainParams = 2 →
      ("_main", [(store_module_arguments st path args).1.1,
                 (store_module_arguments st path args).1.2])
        ∈ (run_emscripten_instance inst st path args).1)
    ∧ (inst.mainParams = 0 →
      ("_main", ([] : List Nat)) ∈ (run_emscripten_instance inst st path args).1)
    ∧ (inst.mainParams ≠ 2 → inst.mainParams ≠ 0 →
      (run_emscripten_instance inst st path args).2
          = .panicked (mainArityMsg inst.mainParams)
      ∧ ∀ a, ("_main", a) ∉ (run_emscripten_instance inst st path args).1) := by
  obtain ⟨d, hd⟩ := Option.isSome_iff_exists.mp h1
  have hrun := run_unfold_some inst st path args d hd
  by_cases hc : ctorName ∈ inst.funcs
  · rw [if_pos hc] at hrun
    simp only [h3 hc] at hrun
    refine ⟨?_, ?_, ?_⟩
    · intro ha
      rw [hrun, runMain_two inst st path args h2 ha]
      simp
    · intro ha
      rw [hrun, runMain_zero inst st path args h2 ha]
      simp
    · intro ha2 ha0
      rw [hrun, runMain_other inst st path args h2 ha2 ha0]
      refine ⟨rfl, ?_⟩
      intro a hmem
      simp [ctorName] at hmem
  · rw [if_neg hc] at hrun
    refine ⟨?_, ?_, ?_⟩
    · intro ha
      rw [hrun, runMain_two inst st path args h2 ha]
      simp
    · intro ha
      rw [hrun, runMain_zero inst st path args h2 ha]
      simp
    · intro ha2 ha0
      rw [hrun, runMain_other inst st path args h2 ha2 ha0]
      exact ⟨rfl, fun a hmem => by simp at hmem⟩

theorem C4_entry_arity_witness :
    (exampleInstance.mainParams = 2 →
      ("_main", [(store_module_arguments exampleStack examplePath exampleArgs).1.1,
                 (store_module_arguments exampleStack examplePath exampleArgs).1.2])
        ∈ (run_emscripten_instance exampleInstance exampleStack examplePath
            exampleArgs).1)
    ∧ (exampleInstance.mainParams = 0 →
      ("_main", ([] : List Nat))
        ∈ (run_emscripten_instance exampleInstance exampleStack examplePath
            exampleArgs).1)
    ∧ (exampleInstance.mainParams ≠ 2 → exampleInstance.mainParams ≠ 0 →
      (run_emscripten_instance exampleInstance exampleStack examplePath exampleArgs).2
          = .panicked (mainArityMsg exampleInstance.mainParams)
      ∧ ∀ a, ("_main", a)
          ∉ (run_emscripten_instance exampleInstance exampleStack examplePath
              exampleArgs).1) :=
  C4_entry_arity exampleInstance exampleStack examplePath exampleArgs []
    (by decide) (by decide) (fun _ => rfl)

/-- C8: the environment constructor is invoked (with no arguments) if and only
if the module exports it; when invoked it is the first call of the launch, so
it precedes any `_main` invocation; when absent the launch proceeds directly
to the entry dispatch and the constructor is never called. -/
theorem C8_ctor_first (inst : Instance) (st : GuestStack) (path : List Nat)
    (args : List (List Nat)) (d : EmscriptenData)
    (hnew : EmscriptenData.new inst = some d) :
    (ctorName ∈ inst.funcs →
      ∃ rest, (run_emscripten_instance inst st path args).1
          = (ctorName, ([] : List Nat)) :: rest
        ∧ ∀ a, (ctorName, a) ∉ rest)
    ∧ (ctorName ∉ inst.funcs →
      run_emscripten_instance inst st path args = runMain inst st path args
      ∧ ∀ a, (ctorName, a) ∉ (run_emscripten_instance inst st path args).1) := by
  have hrun := run_unfold_some inst st path args d hnew
  constructor
  · intro hc
    rw [if_pos hc] at hrun
    cases hcall : inst.call ctorName [] with
    | error e =>
      simp only [hcall] at hrun
      exact ⟨[], by rw [hrun], fun a => by simp⟩
    | ok v =>
      simp only [hcall] at hrun
      refine ⟨(runMain inst st path args).1, by rw [hrun], ?_⟩
      intro a
      exact runMain_no_ctor inst st path args a
  · intro hc
    rw [if_neg hc] at hrun
    refine ⟨hrun, ?_⟩
    intro a
    rw [hrun]
    exact runMain_no_ctor inst st path args a

theorem C8_ctor_first_witness :
    (ctorName ∈ exampleInstance.funcs →
      ∃ rest, (run_emscripten_instance exampleInstance exampleStack examplePath
            exampleArgs).1
          = (ctorName, ([] : List Nat)) :: rest
        ∧ ∀ a, (ctorName, a) ∉ rest)
    ∧ (ctorName ∉ exampleInstance.funcs →
      run_emscripten_instance exampleInstance exampleStack examplePath exampleArgs
          = runMain exampleInstance exampleStack examplePath exampleArgs
      ∧ ∀ a, (ctorName, a)
          ∉ (run_emscripten_instance exampleInstance exampleStack examplePath
              exampleArgs).1) :=
  C8_ctor_first exampleInstance exampleStack examplePath exampleArgs
    { malloc := "_malloc", free := "_free", memalign := none,
      memset := "_memset", stack_alloc := "stackAlloc", jumps := [] }
    (by rfl)

/-- C9: a failure returned by the environment-constructor invocation, or by
the `_main` invocation, propagates unchanged as the outcome of the launch, and
the call trace shows exactly one attempt of the failed invocation (no retry):
a failed constructor ends the launch with only that call in the trace, and a
failed `_main` ends it with `_main` as the final, single entry call. -/
theorem C9_error_propagation (inst : Instance) (st : GuestStack) (path : List Nat)
    (args : List (List Nat)) (d : EmscriptenData) (e : String)
    (hnew : EmscriptenData.new inst = some d) :
    (ctorName ∈ inst.funcs → inst.call ctorName [] = .error e →
      run_emscripten_instance inst st path args
        = ([(ctorName, [])], .callFailure e))
    ∧ (∀ retc, (ctorName ∈ inst.funcs → inst.call ctorName [] = .ok retc) →
        "_main" ∈ inst.funcs →
        ((inst.mainParams = 2 →
          inst.call "_main" [(store_module_arguments st path args).1.1,
                             (store_module_arguments st path args).1.2] = .error e →
          (run_emscripten_instance inst st path args).2 = .callFailure e
          ∧ (run_emscripten_instance inst st path args).1
            = (if ctorName ∈ inst.funcs then [(ctorName, ([] : List Nat))] else [])
              ++ [("_main", [(store_module_arguments st path args).1.1,
                             (store_module_arguments st path args).1.2])])
        ∧ (inst.mainParams = 0 →
          inst.call "_main" [] = .error e →
          (run_emscripten_instance inst st path args).2 = .callFailure e
          ∧ (run_emscripten_instance inst st path args).1
            = (if ctorName ∈ inst.funcs then [(ctorName, ([] : List Nat))] else [])
              ++ [("_main", ([] : List Nat))]))) := by
  have hrun := run_unfold_some inst st path args d hnew
  constructor
  · intro hc hcall
    rw [if_pos hc] at hrun
    simp only [hcall] at hrun
    exact hrun
  · intro retc hctor hmain
    constructor
    · intro ha hcall
      have hm := runMain_two inst st path args hmain ha
      simp only [hcall] at hm
      by_cases hc : ctorName ∈ inst.funcs
      · rw [if_pos hc] at hrun
        simp only [hctor hc] at hrun
        rw [hrun, hm, if_pos hc]
        exact ⟨rfl, rfl⟩
      · rw [if_neg hc] at hrun
        rw [hrun, hm, if_neg hc]
        exact ⟨rfl, rfl⟩
    · intro ha hcall
      have hm := runMain_zero inst st path args hmain ha
      simp only [hcall] at hm
      by_cases hc : ctorName ∈ inst.funcs
      · rw [if_pos hc] at hrun
        simp only [hctor hc] at hrun
        rw [hrun, hm, if_pos hc]
        exact ⟨rfl, rfl⟩
      · rw [if_neg hc] at hrun
        rw [hrun, hm, if_neg hc]
        exact ⟨rfl, rfl⟩

/-- An instance exporting the allocator functions and `_main`, every call of
which fails. -/
def failingInstance : Instance :=
  { funcs := ["_malloc", "_free", "_memset", "stackAlloc", "_main"]
    mainParams := 2
    call := fun _ _ => .error "call failed" }

theorem C9_error_propagation_witness :
    (ctorName ∈ failingInstance.funcs →
      failingInstance.call ctorName [] = .error "call failed" →
      run_emscripten_instance failingInstance exampleStack examplePath exampleArgs
        = ([(ctorName, [])], .callFailure "call failed"))
    ∧ (∀ retc, (ctorName ∈ failingInstance.funcs →
          failingInstance.call ctorName [] = .ok retc) →
        "_main" ∈ failingInstance.funcs →
        ((failingInstance.mainParams = 2 →
          failingInstance.call "_main"
              [(store_module_arguments exampleStack examplePath exampleArgs).1.1,
               (store_module_arguments exampleStack examplePath exampleArgs).1.2]
            = .error "call failed" →
          (run_emscripten_instance failingInstance exampleStack examplePath
              exampleArgs).2 = .callFailure "call failed"
          ∧ (run_emscripten_instance failingInstance exampleStack examplePath
              exampleArgs).1
            = (if ctorName ∈ failingInstance.funcs
                then [(ctorName, ([] : List Nat))] else [])
              ++ [("_main",
                   [(store_module_arguments exampleStack examplePath exampleArgs).1.1,
                    (store_module_arguments exampleStack examplePath exampleArgs).1.2])])
        ∧ (failingInstance.mainParams = 0 →
          failingInstance.call "_main" [] = .error "call failed" →
          (run_emscripten_instance failingInstance exampleStack examplePath
              exampleArgs).2 = .callFailure "call failed"
          ∧ (run_emscripten_instance failingInstance exampleStack examplePath
              exampleArgs).1
            = (if ctorName ∈ failingInstance.funcs
                then [(ctorName, ([] : List Nat))] else [])
              ++ [("_main", ([] : List Nat))]))) :=
  C9_error_propagation failingInstance exampleStack examplePath exampleArgs
    { malloc := "_malloc", free := "_free", memalign := none,
      memset := "_memset", stack_alloc := "stackAlloc", jumps := [] }
    "call failed" (by rfl)

/-- C10: when the entry point completes without error — whatever values it
returns — the launch reports the bare `success` outcome, which carries no
exit code or result value, for every program path and argument list. -/
theorem C10_success_plain (inst : Instance) (st : GuestStack) (path : List Nat)
    (args : List (List Nat)) (retc vs : List Nat)
    (h1 : (EmscriptenData.new inst).isSome)
    (h2 : "_main" ∈ inst.funcs)
    (h3 : ctorName ∈ inst.funcs → inst.call ctorName [] = .ok retc) :
    (inst.mainParams = 2 →
      inst.call "_main" [(store_module_arguments st path args).1.1,
                         (store_module_arguments st path args).1.2] = .ok vs →
      (run_emscripten_instance inst st path args).2 = .success)
    ∧ (inst.mainParams = 0 →
      inst.call "_main" [] = .ok vs →
      (run_emscripten_instance inst st path args).2 = .success) := by
  obtain ⟨d, hd⟩ := Option.isSome_iff_exists.mp h1
  have hrun := run_unfold_some inst st path args d hd
  constructor
  · intro ha hcall
    have hm := runMain_two inst st path args h2 ha
    simp only [hcall] at hm
    by_cases hc : ctorName ∈ inst.funcs
    · rw [if_pos hc] at hrun
      simp only [h3 hc] at hrun
      rw [hrun, hm]
    · rw [if_neg hc] at hrun
      rw [hrun, hm]
  · intro ha hcall
    have hm := runMain_zero inst st path args h2 ha
    simp only [hcall] at hm
    by_cases hc : ctorName ∈ inst.funcs
    · rw [if_pos hc] at hrun
      simp only [h3 hc] at hrun
      rw [hrun, hm]
    · rw [if_neg hc] at hrun
      rw [hrun, hm]

theorem C10_success_plain_witness :
    (exampleInstance.mainParams = 2 →
      exampleInstance.call "_main"
          [(store_module_arguments exampleStack examplePath exampleArgs).1.1,
           (store_module_arguments exampleStack examplePath exampleArgs).1.2]
        = .ok [] →
      (run_emscripten_instance exampleInstance exampleStack examplePath
          exampleArgs).2 = .success)
    ∧ (exampleInstance.mainParams = 0 →
      exampleInstance.call "_main" [] = .ok [] →
      (run_emscripten_instance exampleInstance exampleStack examplePath
          exampleArgs).2 = .success) :=
  C10_success_plain exampleInstance exampleStack examplePath exampleArgs [] []
    (by decide) (by decide) (fun _ => rfl)
